import Mathlib

/-!
Verification development for the easystaff-helper-bot repository.

The Python sources are shallowly embedded as executable Lean definitions:

* `app/database/repositories/cache_repo.py` (`CacheRepository.load/save`)
  becomes `loadFile` / `cacheJson` over an explicit `FileState` that
  enumerates the observable conditions of the backing JSON file;
* `app/utils/formatters.py` (`trunc2`) and the `Decimal.quantize`
  rounding used in `message_handlers.py` become `trunc2` / `roundHalfUp`
  over `ℚ` (the code converts floats through `str` into `Decimal`, so the
  exact-decimal rationals are the faithful value domain);
* `app/handlers/message_handlers.py` (`MessageHandler.handle_conversion`)
  becomes `handleConversion`, with the chat transport, the two scraping
  providers and the clock supplied as oracle arguments;
* `app/services/scheduler.py` (`Scheduler._update_rate`) becomes
  `updateRate`;
* `app/main.py` (`connect_with_retries`) becomes `connectWithRetries`,
  with the random jitter draw supplied as an oracle;
* the file written by `CacheRepository.save` is additionally modelled at
  character level (`cacheDumpText`, `FsOp`) to reason about interleaved
  writers under the single-threaded asyncio event loop.

Python exceptions are modelled with `Except`; machine floats are modelled
as `ℚ` because every numeric decision in the code is taken after an exact
`Decimal(str(x))` conversion or is an order comparison that agrees with
the rational semantics on the decimal literals involved.
-/

/-- Python exception classes that the embedded code can raise or catch. -/
inductive PyErr where
  | valueError
  | zeroDivisionError
  | typeError
  | unicodeDecodeError
  | jsonDecodeError
  | osError
  | providerError
  deriving DecidableEq

/-- JSON values, the result type of `json.load` in `cache_repo.py`. -/
inductive Json where
  | num (q : ℚ)
  | str (s : String)
  | bool (b : Bool)
  | null
  | arr (elems : List Json)
  | obj (fields : List (String × Json))

/-- Key string for the rate field of the cache dictionary. -/
def rateKey : String := "rate"

/-- Key string for the timestamp field of the cache dictionary. -/
def updKey : String := "updated_at"

/-- Association-list lookup, the semantics of `dict.get` on the decoded
JSON object (keys of a decoded JSON dict are the parsed field names). -/
def lookupField : List (String × Json) → String → Option Json
  | [], _ => none
  | (k, v) :: rest, key => if k = key then some v else lookupField rest key

/-- `d.get(key)` for a decoded JSON value: only objects carry fields. -/
def getField : Json → String → Option Json
  | .obj fs, k => lookupField fs k
  | _, _ => none

/-- Python truthiness of a decoded JSON value, used by
`(rub_amount / easy_rate) if easy_rate else 0.0` and `load() or {}`. -/
def jsonTruthy : Json → Bool
  | .num q => decide (q ≠ 0)
  | .str s => !s.isEmpty
  | .bool b => b
  | .null => false
  | .arr xs => !xs.isEmpty
  | .obj fs => !fs.isEmpty

/-- Observable states of the backing cache file, as distinguished by the
code paths of `CacheRepository.load`: the file may be absent
(`self.cache_path.exists()` is false), unreadable at the OS level
(`IOError`), readable but not valid UTF-8 (`open(..., encoding='utf-8')`
plus `json.load` raises `UnicodeDecodeError`), decodable text that is not
valid JSON (`json.JSONDecodeError`), or valid JSON with some value. -/
inductive FileState where
  | absent
  | unreadable
  | undecodable
  | malformed
  | json (v : Json)

/-- `CacheRepository.load` of `cache_repo.py`.  Absence returns `{}`;
`IOError` and `json.JSONDecodeError` are caught and return `{}`; a decoded
non-dict value returns `{}` (`data if isinstance(data, dict) else {}`);
a decoded dict is returned as is.  A `UnicodeDecodeError` raised while
reading a non-UTF-8 file matches neither `json.JSONDecodeError` nor
`IOError`, so it propagates out of `load`. -/
def loadFile : FileState → Except PyErr Json
  | .absent => .ok (.obj [])
  | .unreadable => .ok (.obj [])
  | .undecodable => .error .unicodeDecodeError
  | .malformed => .ok (.obj [])
  | .json v => .ok (if v matches .obj _ then v else .obj [])

/-- Fields of the aware UTC `datetime.now(timezone.utc)` value whose
`isoformat()` string is stored by `CacheRepository.save`. -/
structure PyDateTime where
  year : ℕ
  month : ℕ
  day : ℕ
  hour : ℕ
  minute : ℕ
  second : ℕ
  microsecond : ℕ
  deriving DecidableEq

/-- Field ranges of every value `datetime.now(timezone.utc)` can return. -/
def PyDateTime.valid (t : PyDateTime) : Prop :=
  t.year < 10000 ∧ 1 ≤ t.month ∧ t.month ≤ 12 ∧ 1 ≤ t.day ∧ t.day ≤ 31 ∧
    t.hour < 24 ∧ t.minute < 60 ∧ t.second < 60 ∧ t.microsecond < 1000000

instance (t : PyDateTime) : Decidable t.valid := by
  unfold PyDateTime.valid; infer_instance

/-- The character of a single decimal digit. -/
def digitChar (n : ℕ) : Char := Char.ofNat (48 + n)

/-- Numeric value of a decimal digit character. -/
def charVal (c : Char) : ℕ := c.toNat - 48

/-- Whether a character is a decimal digit. -/
def isDigitC (c : Char) : Bool := decide (48 ≤ c.toNat ∧ c.toNat ≤ 57)

/-- Two-digit zero-padded rendering (`%02d`). -/
def pad2 (n : ℕ) : List Char := [digitChar (n / 10), digitChar (n % 10)]

/-- Four-digit zero-padded rendering (`%04d`). -/
def pad4 (n : ℕ) : List Char :=
  [digitChar (n / 1000), digitChar (n / 100 % 10), digitChar (n / 10 % 10),
    digitChar (n % 10)]

/-- Six-digit zero-padded rendering (`%06d`). -/
def pad6 (n : ℕ) : List Char :=
  [digitChar (n / 100000), digitChar (n / 10000 % 10), digitChar (n / 1000 % 10),
    digitChar (n / 100 % 10), digitChar (n / 10 % 10), digitChar (n % 10)]

/-- `datetime.isoformat()` of an aware UTC datetime:
`YYYY-MM-DDTHH:MM:SS[.ffffff]+00:00`, the fractional part being omitted
exactly when the microsecond field is zero. -/
def isoformatUTC (t : PyDateTime) : List Char :=
  pad4 t.year ++ '-' :: pad2 t.month ++ '-' :: pad2 t.day ++
    'T' :: pad2 t.hour ++ ':' :: pad2 t.minute ++ ':' :: pad2 t.second ++
    (if t.microsecond = 0 then [] else '.' :: pad6 t.microsecond) ++
    ['+', '0', '0', ':', '0', '0']

/-- Consume one expected punctuation character. -/
def expectChar (c : Char) : List Char → Option (List Char)
  | c2 :: rest => if c2 = c then some rest else none
  | _ => none

/-- Consume a two-digit number. -/
def parse2 : List Char → Option (ℕ × List Char)
  | c1 :: c2 :: rest =>
    if isDigitC c1 ∧ isDigitC c2 then
      some (charVal c1 * 10 + charVal c2, rest)
    else none
  | _ => none

/-- Consume a four-digit number. -/
def parse4 : List Char → Option (ℕ × List Char)
  | c1 :: c2 :: c3 :: c4 :: rest =>
    if isDigitC c1 ∧ isDigitC c2 ∧ isDigitC c3 ∧ isDigitC c4 then
      some (charVal c1 * 1000 + charVal c2 * 100 + charVal c3 * 10 +
        charVal c4, rest)
    else none
  | _ => none

/-- Consume a six-digit number. -/
def parse6 : List Char → Option (ℕ × List Char)
  | c1 :: c2 :: c3 :: c4 :: c5 :: c6 :: rest =>
    if isDigitC c1 ∧ isDigitC c2 ∧ isDigitC c3 ∧ isDigitC c4 ∧ isDigitC c5 ∧
        isDigitC c6 then
      some (charVal c1 * 100000 + charVal c2 * 10000 + charVal c3 * 1000 +
        charVal c4 * 100 + charVal c5 * 10 + charVal c6, rest)
    else none
  | _ => none

/-- The UTC offset suffix `+00:00`. -/
def plusZeros : List Char := ['+', '0', '0', ':', '0', '0']

/-- Parse the optional fractional-seconds-plus-UTC-offset tail of an
ISO-8601 UTC string: either exactly `+00:00`, or `.ffffff+00:00`. -/
def parseIsoTail (l : List Char) : Option ℕ :=
  match l with
  | c :: rest =>
    if c = '.' then
      match parse6 rest with
      | some (us, l2) => if l2 = plusZeros then some us else none
      | none => none
    else if l = plusZeros then some 0 else none
  | [] => none

/-- Parse an ISO-8601 UTC timestamp of the shape produced by
`datetime.now(timezone.utc).isoformat()`, validating digit positions,
the `+00:00` offset and the calendar field ranges, as
`datetime.fromisoformat` does. -/
def parseIsoUtc (l : List Char) : Option PyDateTime := do
  let (y, l) ← parse4 l
  let l ← expectChar '-' l
  let (mo, l) ← parse2 l
  let l ← expectChar '-' l
  let (d, l) ← parse2 l
  let l ← expectChar 'T' l
  let (h, l) ← parse2 l
  let l ← expectChar ':' l
  let (mi, l) ← parse2 l
  let l ← expectChar ':' l
  let (s, l) ← parse2 l
  let us ← parseIsoTail l
  if 1 ≤ mo ∧ mo ≤ 12 ∧ 1 ≤ d ∧ d ≤ 31 ∧ h < 24 ∧ mi < 60 ∧ s < 60 then
    some ⟨y, mo, d, h, mi, s, us⟩
  else none

/-- The JSON dictionary written by `CacheRepository.save(rate)`:
`{"rate": rate, "updated_at": datetime.now(timezone.utc).isoformat()}`. -/
def cacheJson (r : ℚ) (t : PyDateTime) : Json :=
  .obj [(rateKey, .num r), (updKey, .str (String.mk (isoformatUTC t)))]

/-- File state after a successful `CacheRepository.save(rate)`: the file
holds exactly the freshly dumped dictionary. -/
def saveFile (r : ℚ) (t : PyDateTime) : FileState := .json (cacheJson r t)

/-- Truncation of a rational toward zero to an integer, the effect of
`Decimal.quantize(..., rounding=ROUND_DOWN)` at integer precision. -/
def ratTruncZ (q : ℚ) : ℤ := if 0 ≤ q then ⌊q⌋ else ⌈q⌉

/-- `trunc2` of `app/utils/formatters.py`:
`Decimal(str(x)).quantize(Decimal("0.00"), rounding=ROUND_DOWN)` keeps two
decimal places, dropping the rest toward zero.  The `str` round trip makes
the computation exact decimal arithmetic, hence the `ℚ` model. -/
def trunc2 (q : ℚ) : ℚ := (ratTruncZ (q * 100) : ℚ) / 100

/-- `Decimal(str(x)).quantize(Decimal("1"), rounding=ROUND_HALF_UP)` from
`handle_conversion`: round to the nearest integer, ties away from zero. -/
def roundHalfUp (q : ℚ) : ℤ := if 0 ≤ q then ⌊q + 1 / 2⌋ else -⌊-q + 1 / 2⌋

/-- Python `/`: raises `ZeroDivisionError` on a zero denominator. -/
def pyDiv (a b : ℚ) : Except PyErr ℚ :=
  if b = 0 then .error .zeroDivisionError else .ok (a / b)

/-- Replies that `handle_conversion` can send to the requesting chat. -/
structure ConvReply where
  xeRaw : ℚ
  easyRaw : ℚ
  percent : ℚ
  usedRaw : ℚ
  xeShow : ℚ
  easyShow : ℚ
  usedShow : ℚ
  rounded : ℤ
  easyRate : ℚ
  updatedAt : Option Json

/-- The messages `handle_conversion` replies with, in order of the code:
the three validation replies, the cache-miss wait notice, the failed-fetch
reply, the zero/invalid-rate reply, the final conversion reply, and the
reply produced by the central `handle_error` path of the outer `except`. -/
inductive Reply where
  | notANumber
  | needPositive
  | belowMinimum
  | waitEasystaff
  | easyFailed
  | invalidRate
  | conversion (c : ConvReply)
  | errorReply

/-- Observable outcome of one `handle_conversion` call: the replies sent,
whether each provider was contacted, and every rate passed to
`cache.save`. -/
structure HandleResult where
  replies : List Reply
  xeCalled : Bool
  easyCalled : Bool
  saved : List ℚ

/-- `eur_easy_raw = (rub_amount / easy_rate) if easy_rate else 0.0`:
a falsy rate short-circuits to `0.0` without dividing; a truthy
non-number would make the division raise `TypeError`. -/
def eurEasyOf (amount : ℚ) (v : Json) : Except PyErr ℚ :=
  if jsonTruthy v then
    match v with
    | .num q => pyDiv amount q
    | _ => .error .typeError
  else .ok 0

/-- Steps 5–7 of `handle_conversion`, shared by the cache-hit and the
fetch-and-save paths: compute `eur_easy_raw`, validate both raw values,
compute divergence and recommendation, truncate for display and round
half-up for invoicing. -/
def continueConv (amount xeRaw : ℚ) (v : Json) (upd : Option Json)
    (pre : List Reply) (easyCalled : Bool) (savedL : List ℚ) : HandleResult :=
  match eurEasyOf amount v with
  | .error _ => ⟨pre ++ [.errorReply], true, easyCalled, savedL⟩
  | .ok easyRaw =>
    if xeRaw = 0 ∨ xeRaw ≤ 0 ∨ easyRaw = 0 ∨ easyRaw ≤ 0 then
      ⟨pre ++ [.invalidRate], true, easyCalled, savedL⟩
    else
      match v with
      | .num q =>
        let diff := |xeRaw - easyRaw|
        let percent := diff / min xeRaw easyRaw * 100
        let usedRaw := if percent ≤ 10 then max xeRaw easyRaw
          else min xeRaw easyRaw
        ⟨pre ++ [.conversion ⟨xeRaw, easyRaw, percent, usedRaw, trunc2 xeRaw,
          trunc2 easyRaw, trunc2 usedRaw, roundHalfUp usedRaw, q, upd⟩],
          true, easyCalled, savedL⟩
      | _ => ⟨pre ++ [.errorReply], true, easyCalled, savedL⟩

/-- `MessageHandler.handle_conversion` of `message_handlers.py`.

Oracle arguments stand for the environment: `parsed` is the result of
`float(message.text)` (`.error` = `ValueError`); `xeF` is
`self.xe.get_rate`; `file0` is the state of the cache file at the first
`self.cache.load()`; `easyF` is `self.easystaff.get_rate()` on the
cache-miss path; `saveOk` tells whether `self.cache.save` succeeded at
the OS level (on failure the file keeps its previous state); `now` is
the clock value `save` would stamp.  The stats update never touches the
providers or the cache and is omitted. -/
def handleConversion (parsed : Except Unit ℚ) (xeF : ℚ → Except PyErr ℚ)
    (file0 : FileState) (easyF : Except PyErr (Option ℚ)) (saveOk : Bool)
    (now : PyDateTime) : HandleResult :=
  match parsed with
  | .error _ => ⟨[.notANumber], false, false, []⟩
  | .ok amount =>
    if amount ≤ 0 then ⟨[.needPositive], false, false, []⟩
    else if amount < 10000 then ⟨[.belowMinimum], false, false, []⟩
    else
      match xeF amount with
      | .error _ => ⟨[.errorReply], true, false, []⟩
      | .ok xeRaw =>
        match loadFile file0 with
        | .error _ => ⟨[.errorReply], true, false, []⟩
        | .ok cache0 =>
          match getField cache0 rateKey with
          | some v => continueConv amount xeRaw v (getField cache0 updKey)
              [] false []
          | none =>
            match easyF with
            | .error _ => ⟨[.waitEasystaff, .errorReply], true, true, []⟩
            | .ok none => ⟨[.waitEasystaff, .easyFailed], true, true, []⟩
            | .ok (some r) =>
              let file1 := if saveOk then saveFile r now else file0
              match loadFile file1 with
              | .error _ => ⟨[.waitEasystaff, .errorReply], true, true, [r]⟩
              | .ok cache1 => continueConv amount xeRaw (.num r)
                  (getField cache1 updKey) [.waitEasystaff] true [r]

/-- Admin notification sent by `Scheduler._update_rate`. -/
inductive Notif where
  | success (r : ℚ)
  | failure
  deriving DecidableEq

/-- Outcome of one `Scheduler._update_rate` run: the rate saved to the
cache, if any, and the admin notification sent. -/
structure UpdateResult where
  savedRate : Option ℚ
  notif : Notif

/-- `Scheduler._update_rate` of `scheduler.py`: fetch the Easystaff rate
(`.error` models a raised exception, `.ok none` a `None` return), save it
only when `rate and rate > 0` is truthy, and notify the admins of success
or failure. -/
def updateRate (fetch : Except PyErr (Option ℚ)) : UpdateResult :=
  match fetch with
  | .error _ => ⟨none, .failure⟩
  | .ok none => ⟨none, .failure⟩
  | .ok (some r) => if r ≠ 0 ∧ 0 < r then ⟨some r, .success r⟩
      else ⟨none, .failure⟩

/-- Outcome of `connect_with_retries`: the returned value or re-raised
error (`.ok none` models falling through a zero-attempt loop and
returning `None`), the delays slept, and the number of attempts made. -/
structure RetryOutcome (E C : Type) where
  outcome : Except E (Option C)
  delays : List ℚ
  attemptsMade : ℕ

/-- The bounded retry loop of `connect_with_retries` in `app/main.py`,
with `k` attempts remaining and `n` the 1-based index of the next
attempt.  `att n` is the result of the `n`-th `make_conn()` call and
`jit n` the `random.uniform(1.0, 1.4)` draw after a failed attempt `n`.
On success the value is returned at once; after a failure that is not the
last attempt the loop sleeps `min(cap, base * 2^(n-1)) * jit n`; a failure
on the last attempt re-raises that error. -/
def retryGo (att : ℕ → Except E C) (jit : ℕ → ℚ) (base cap : ℚ) :
    ℕ → ℕ → RetryOutcome E C
  | 0, _ => ⟨.ok none, [], 0⟩
  | k + 1, n =>
    match att n with
    | .ok c => ⟨.ok (some c), [], 1⟩
    | .error e =>
      match k with
      | 0 => ⟨.error e, [], 1⟩
      | k' + 1 =>
        let rest := retryGo att jit base cap (k' + 1) (n + 1)
        ⟨rest.outcome, min cap (base * 2 ^ (n - 1)) * jit n :: rest.delays,
          rest.attemptsMade + 1⟩

/-- `connect_with_retries(make_conn, retries, base, cap)`: run the loop
from attempt 1. -/
def connectWithRetries (att : ℕ → Except E C) (jit : ℕ → ℚ)
    (base cap : ℚ) (retries : ℕ) : RetryOutcome E C :=
  retryGo att jit base cap retries 1

/-- Raw cache file content, at character granularity. -/
abbrev FileText := List Char

/-- Decimal text of the rate number as written by `json.dump`. -/
def ratChars (q : ℚ) : List Char := (toString q).data

/-- The exact text `json.dump(data, f, ensure_ascii=False, indent=2)`
writes for the cache dictionary of `CacheRepository.save`:
a two-field object pretty-printed with two-space indentation. -/
def cacheDumpText (r : ℚ) (t : PyDateTime) : FileText :=
  ['\x7b'] ++ ("\n  \"rate\": ").data ++ ratChars r ++
    (",\n  \"updated_at\": \"").data ++ isoformatUTC t ++
    ("\"\n").data ++ ['\x7d']

/-- Elementary effects of `CacheRepository.save` on the file: `open(path,
'w')` truncates the file, and the serializer then appends characters. -/
inductive FsOp where
  | truncate
  | append (c : Char)

/-- Apply one elementary file operation. -/
def applyFsOp : FileText → FsOp → FileText
  | _, .truncate => []
  | t, .append c => t ++ [c]

/-- Run a list of elementary operations in order. -/
def runOps (t : FileText) (ops : List FsOp) : FileText :=
  ops.foldl applyFsOp t

/-- The elementary operations performed by one `CacheRepository.save(r)`
call: truncate, then write the serialized dictionary. -/
def saveOps (r : ℚ) (tm : PyDateTime) : List FsOp :=
  .truncate :: (cacheDumpText r tm).map .append

/-- One atomic segment of an asyncio task: the file operations executed
between two suspension points.  `CacheRepository.save` is a plain
synchronous `def` with no `await` between `open` and `json.dump`, so the
event loop runs all of its file operations as one segment; the provider
fetch that precedes `save` in a refresh awaits but touches no file, so
its segment is empty. -/
abbrev Segment := List FsOp

/-- A segment an interleaving of refresh calls can contribute: either a
file-silent awaited step or one complete `save`. -/
def refreshSegment (seg : Segment) : Prop :=
  seg = [] ∨ ∃ r tm, seg = saveOps r tm

/-- Run an interleaving: the event loop executes whole segments of the
scheduled tasks one after another, in an arbitrary order. -/
def runSchedule (t0 : FileText) (sched : List Segment) : FileText :=
  sched.foldl runOps t0

/-- C2.  The claim says `RateCache.load()` never raises for any state of
the backing file.  The code catches only `json.JSONDecodeError` and
`IOError`: a cache file whose bytes are not valid UTF-8 makes
`open(..., encoding='utf-8')` / `json.load` raise `UnicodeDecodeError`,
which neither clause catches, so `load()` raises.  All other enumerated
states behave as claimed: absent, OS-unreadable and malformed-JSON files
yield the empty record, a valid JSON non-object yields the empty record,
and a valid JSON object is returned as stored. -/
theorem load_raises_on_undecodable_file :
    loadFile .undecodable = .error .unicodeDecodeError ∧
    loadFile .absent = .ok (.obj []) ∧
    loadFile .unreadable = .ok (.obj []) ∧
    loadFile .malformed = .ok (.obj []) ∧
    loadFile (.json (.arr [])) = .ok (.obj []) ∧
    loadFile (.json (.obj [(rateKey, .num 85), (updKey, .null)])) =
      .ok (.obj [(rateKey, .num 85), (updKey, .null)]) :=
  ⟨rfl, rfl, rfl, rfl, rfl, rfl⟩

/-- C3.  The claim says every rate persisted into the cache is strictly
positive.  The scheduler's refresh path indeed saves only when
`rate and rate > 0` (see `refresh_failure_leaves_cache` for C8), but the
on-demand cache-miss path of `handle_conversion` guards the fetched rate
only with `if easy_rate is None`: when `EasystaffService.get_rate()`
returns `0.0` with an empty cache, `cache.save(0.0)` runs and a record
with `rate = 0` is persisted, violating `rate > 0`. -/
theorem handler_persists_nonpositive_rate :
    (handleConversion (.ok 10000) (fun _ => .ok 1) .absent (.ok (some 0))
      true ⟨2025, 1, 1, 0, 0, 0, 0⟩).saved = [0] ∧
    ¬ (0 : ℚ) > 0 ∧
    (updateRate (.ok (some 0))).savedRate = none := by
  refine ⟨rfl, by norm_num, rfl⟩

/-- C7.  A conversion request whose parsed amount is non-positive or
below the 10,000 floor is answered with the corresponding validation
reply, neither provider is called, and nothing is saved. -/
theorem validation_rejects_before_providers (a : ℚ)
    (xeF : ℚ → Except PyErr ℚ) (file0 : FileState)
    (easyF : Except PyErr (Option ℚ)) (saveOk : Bool) (now : PyDateTime)
    (h : a ≤ 0 ∨ a < 10000) :
    (handleConversion (.ok a) xeF file0 easyF saveOk now).xeCalled = false ∧
    (handleConversion (.ok a) xeF file0 easyF saveOk now).easyCalled = false ∧
    (handleConversion (.ok a) xeF file0 easyF saveOk now).saved = [] ∧
    ((handleConversion (.ok a) xeF file0 easyF saveOk now).replies =
        [.needPositive] ∨
      (handleConversion (.ok a) xeF file0 easyF saveOk now).replies =
        [.belowMinimum]) := by
  by_cases h0 : a ≤ 0
  · refine ⟨?_, ?_, ?_, Or.inl ?_⟩ <;> simp [handleConversion, h0]
  · have h1 : a < 10000 := h.resolve_left h0
    refine ⟨?_, ?_, ?_, Or.inr ?_⟩ <;> simp [handleConversion, h0, h1]

/-- Witness for `validation_rejects_before_providers` at amount 5000. -/
theorem validation_rejects_before_providers_witness :
    (handleConversion (.ok 5000) (fun _ => .ok 1) .absent (.ok none) true
      ⟨2025, 1, 1, 0, 0, 0, 0⟩).xeCalled = false ∧
    (handleConversion (.ok 5000) (fun _ => .ok 1) .absent (.ok none) true
      ⟨2025, 1, 1, 0, 0, 0, 0⟩).easyCalled = false ∧
    (handleConversion (.ok 5000) (fun _ => .ok 1) .absent (.ok none) true
      ⟨2025, 1, 1, 0, 0, 0, 0⟩).saved = [] ∧
    ((handleConversion (.ok 5000) (fun _ => .ok 1) .absent (.ok none) true
        ⟨2025, 1, 1, 0, 0, 0, 0⟩).replies = [.needPositive] ∨
      (handleConversion (.ok 5000) (fun _ => .ok 1) .absent (.ok none) true
        ⟨2025, 1, 1, 0, 0, 0, 0⟩).replies = [.belowMinimum]) :=
  validation_rejects_before_providers 5000 (fun _ => .ok 1) .absent
    (.ok none) true ⟨2025, 1, 1, 0, 0, 0, 0⟩ (Or.inr (by norm_num))

/-- C8.  `Scheduler._update_rate`: a raised fetch, a `None` rate, and a
non-positive rate all leave the cache unsaved and notify the admins of
the failure; a rate is saved exactly when it is strictly positive, in
which case the success notification carries it. -/
theorem refresh_failure_leaves_cache (fetch : Except PyErr (Option ℚ)) :
    (∀ e, fetch = .error e →
      (updateRate fetch).savedRate = none ∧
        (updateRate fetch).notif = .failure) ∧
    (fetch = .ok none →
      (updateRate fetch).savedRate = none ∧
        (updateRate fetch).notif = .failure) ∧
    (∀ r, fetch = .ok (some r) → r ≤ 0 →
      (updateRate fetch).savedRate = none ∧
        (updateRate fetch).notif = .failure) ∧
    (∀ r, (updateRate fetch).savedRate = some r →
      0 < r ∧ (updateRate fetch).notif = .success r) := by
  rcases fetch with e | r?
  · refine ⟨fun _ _ => ⟨rfl, rfl⟩, ?_, ?_, ?_⟩
    · intro h; exact absurd h (by simp)
    · intro r h; exact absurd h (by simp)
    · intro r h; simp [updateRate] at h
  · rcases r? with _ | r
    · refine ⟨?_, fun _ => ⟨rfl, rfl⟩, ?_, ?_⟩
      · intro e h; exact absurd h (by simp)
      · intro r h; simp at h
      · intro r h; simp [updateRate] at h
    · refine ⟨?_, ?_, ?_, ?_⟩
      · intro e h; exact absurd h (by simp)
      · intro h; simp at h
      · intro r' hr' hle
        have hr'' : r = r' := by simpa using hr'
        subst hr''
        have hcond : ¬ (r ≠ 0 ∧ 0 < r) := by
          rintro ⟨-, hpos⟩; exact absurd hpos (not_lt.mpr hle)
        simp [updateRate, hcond]
      · intro r' hr'
        by_cases hcond : r ≠ 0 ∧ 0 < r
        · simp only [updateRate, if_pos hcond] at hr' ⊢
          have : r = r' := by simpa using hr'
          subst this
          exact ⟨hcond.2, rfl⟩
        · simp [updateRate, hcond] at hr'

/-- Witness for `refresh_failure_leaves_cache` at a fetched rate of 0. -/
theorem refresh_failure_leaves_cache_witness :
    (updateRate (.ok (some 0))).savedRate = none ∧
    (updateRate (.ok (some 0))).notif = .failure :=
  (refresh_failure_leaves_cache (.ok (some 0))).2.2.1 0 rfl (by norm_num)

/-- C10.  When the obtained Easystaff rate is zero, the conditional
expression guards the division (`pyDiv` models the raising `/`), so
`eur_easy_raw` becomes `0.0` instead of raising `ZeroDivisionError`, and
the positivity validation answers with the zero/invalid-rate reply —
both when the zero rate comes from the cache and when it is freshly
fetched on a cache miss. -/
theorem zero_rate_division_guard (X a : ℚ) (ts : String)
    (easyF : Except PyErr (Option ℚ)) (saveOk : Bool) (now : PyDateTime)
    (hX : 10000 ≤ X) :
    eurEasyOf X (.num 0) = .ok 0 ∧
    pyDiv X 0 = .error .zeroDivisionError ∧
    (handleConversion (.ok X) (fun _ => .ok a)
      (.json (.obj [(rateKey, .num 0), (updKey, .str ts)])) easyF saveOk
      now).replies = [.invalidRate] ∧
    (handleConversion (.ok X) (fun _ => .ok a) .absent (.ok (some 0))
      saveOk now).replies = [.waitEasystaff, .invalidRate] := by
  have h0 : ¬ X ≤ 0 := by linarith
  have h1 : ¬ X < 10000 := not_lt.mpr hX
  refine ⟨rfl, rfl, ?_, ?_⟩
  · simp [handleConversion, h0, h1, continueConv, eurEasyOf, jsonTruthy,
      getField, lookupField, rateKey, updKey, loadFile]
  · cases saveOk <;>
      simp [handleConversion, h0, h1, continueConv, eurEasyOf, jsonTruthy,
        getField, lookupField, rateKey, updKey, loadFile, saveFile, cacheJson]

/-- Witness for `zero_rate_division_guard` at amount 10000. -/
theorem zero_rate_division_guard_witness :
    eurEasyOf 10000 (.num 0) = .ok 0 ∧
    pyDiv 10000 0 = .error .zeroDivisionError ∧
    (handleConversion (.ok 10000) (fun _ => .ok 1)
      (.json (.obj [(rateKey, .num 0), (updKey, .str "")])) (.ok none) true
      ⟨2025, 1, 1, 0, 0, 0, 0⟩).replies = [.invalidRate] ∧
    (handleConversion (.ok 10000) (fun _ => .ok 1) .absent (.ok (some 0))
      true ⟨2025, 1, 1, 0, 0, 0, 0⟩).replies =
      [.waitEasystaff, .invalidRate] :=
  zero_rate_division_guard 10000 1 "" (.ok none) true
    ⟨2025, 1, 1, 0, 0, 0, 0⟩ (le_refl 10000)

/-- Full evaluation of `handle_conversion` on the cache-hit path with a
valid amount, a positive XE result and a positive cached rate. -/
lemma handleConversion_hit (X a r : ℚ) (ts : String)
    (easyF : Except PyErr (Option ℚ)) (saveOk : Bool) (now : PyDateTime)
    (hX : 10000 ≤ X) (ha : 0 < a) (hr : 0 < r) :
    handleConversion (.ok X) (fun _ => .ok a)
      (.json (.obj [(rateKey, .num r), (updKey, .str ts)])) easyF saveOk
      now =
    ⟨[.conversion ⟨a, X / r, |a - X / r| / min a (X / r) * 100,
      (if |a - X / r| / min a (X / r) * 100 ≤ 10 then max a (X / r)
        else min a (X / r)),
      trunc2 a, trunc2 (X / r),
      trunc2 (if |a - X / r| / min a (X / r) * 100 ≤ 10 then max a (X / r)
        else min a (X / r)),
      roundHalfUp (if |a - X / r| / min a (X / r) * 100 ≤ 10 then
        max a (X / r) else min a (X / r)),
      r, some (.str ts)⟩], true, false, []⟩ := by
  have h0 : ¬ X ≤ 0 := by linarith
  have h1 : ¬ X < 10000 := not_lt.mpr hX
  have hrne : r ≠ 0 := ne_of_gt hr
  have ha0 : a ≠ 0 := ne_of_gt ha
  have ha' : ¬ a ≤ 0 := not_le.mpr ha
  have hbpos : 0 < X / r := div_pos (by linarith) hr
  have hb0 : X / r ≠ 0 := ne_of_gt hbpos
  have hb' : ¬ X / r ≤ 0 := not_le.mpr hbpos
  simp [handleConversion, h0, h1, loadFile, getField, lookupField, rateKey,
    updKey, continueConv, eurEasyOf, jsonTruthy, pyDiv, hrne, ha0, ha',
    hb0, hb']

/-- C1.  On the cache-hit path with positive raw values `a` (XE) and
`X / r` (Easystaff), the handler computes
`percent_divergence = |raw_a - raw_b| / min(raw_a, raw_b) * 100` and
recommends `max` of the two raws when the divergence is at most 10 and
`min` otherwise. -/
theorem handler_reconciliation_formula (X a r : ℚ) (ts : String)
    (easyF : Except PyErr (Option ℚ)) (saveOk : Bool) (now : PyDateTime)
    (hX : 10000 ≤ X) (ha : 0 < a) (hr : 0 < r) :
    ∃ c : ConvReply,
      (handleConversion (.ok X) (fun _ => .ok a)
        (.json (.obj [(rateKey, .num r), (updKey, .str ts)])) easyF saveOk
        now).replies = [.conversion c] ∧
      c.xeRaw = a ∧ c.easyRaw = X / r ∧
      c.percent = |c.xeRaw - c.easyRaw| / min c.xeRaw c.easyRaw * 100 ∧
      c.usedRaw = (if c.percent ≤ 10 then max c.xeRaw c.easyRaw
        else min c.xeRaw c.easyRaw) := by
  refine ⟨⟨a, X / r, |a - X / r| / min a (X / r) * 100,
    if |a - X / r| / min a (X / r) * 100 ≤ 10 then max a (X / r)
      else min a (X / r),
    trunc2 a, trunc2 (X / r),
    trunc2 (if |a - X / r| / min a (X / r) * 100 ≤ 10 then max a (X / r)
      else min a (X / r)),
    roundHalfUp (if |a - X / r| / min a (X / r) * 100 ≤ 10 then
      max a (X / r) else min a (X / r)),
    r, some (.str ts)⟩, ?_, rfl, rfl, rfl, rfl⟩
  rw [handleConversion_hit X a r ts easyF saveOk now hX ha hr]

/-- Witness for `handler_reconciliation_formula`: the spec's own example
`raw_a = 100`, `raw_b = 105` (amount 10500, cached rate 100). -/
theorem handler_reconciliation_formula_witness :
    ∃ c : ConvReply,
      (handleConversion (.ok 10500) (fun _ => .ok 100)
        (.json (.obj [(rateKey, .num 100), (updKey, .str "")])) (.ok none)
        true ⟨2025, 1, 1, 0, 0, 0, 0⟩).replies = [.conversion c] ∧
      c.xeRaw = 100 ∧ c.easyRaw = 10500 / 100 ∧
      c.percent = |c.xeRaw - c.easyRaw| / min c.xeRaw c.easyRaw * 100 ∧
      c.usedRaw = (if c.percent ≤ 10 then max c.xeRaw c.easyRaw
        else min c.xeRaw c.easyRaw) :=
  handler_reconciliation_formula 10500 100 100 "" (.ok none) true
    ⟨2025, 1, 1, 0, 0, 0, 0⟩ (by norm_num) (by norm_num) (by norm_num)

/-- C6.  `trunc2` truncates toward zero to two decimal places and for
nonnegative inputs never increases a value (`1342.455 → 1342.45`,
`10.999 → 10.99`); the invoicing integer is the half-up rounding of the
recommended raw value (`100.5 → 101`); in the handler the three displayed
amounts are `trunc2` of the raw values while the invoicing integer is
`roundHalfUp` of the raw recommended value — two independent policies
applied to the same raw figure. -/
theorem display_truncation_and_invoice_rounding (X a r : ℚ) (ts : String)
    (easyF : Except PyErr (Option ℚ)) (saveOk : Bool) (now : PyDateTime)
    (hX : 10000 ≤ X) (ha : 0 < a) (hr : 0 < r) :
    trunc2 (1342455 / 1000) = 134245 / 100 ∧
    trunc2 (10999 / 1000) = 1099 / 100 ∧
    roundHalfUp (201 / 2) = 101 ∧
    (∀ q : ℚ, 0 ≤ q → trunc2 q ≤ q) ∧
    (∀ q : ℚ, |trunc2 q| ≤ |q|) ∧
    (∀ q : ℚ, ∃ z : ℤ, trunc2 q * 100 = z) ∧
    ∃ c : ConvReply,
      (handleConversion (.ok X) (fun _ => .ok a)
        (.json (.obj [(rateKey, .num r), (updKey, .str ts)])) easyF saveOk
        now).replies = [.conversion c] ∧
      c.xeShow = trunc2 c.xeRaw ∧ c.easyShow = trunc2 c.easyRaw ∧
      c.usedShow = trunc2 c.usedRaw ∧
      c.rounded = roundHalfUp c.usedRaw := by
  refine ⟨?_, ?_, ?_, ?_, ?_, ?_, ?_⟩
  · norm_num [trunc2, ratTruncZ]
  · norm_num [trunc2, ratTruncZ]
  · norm_num [roundHalfUp]
  · intro q hq
    unfold trunc2 ratTruncZ
    rw [if_pos (by positivity : (0 : ℚ) ≤ q * 100)]
    rw [div_le_iff₀ (by norm_num : (0 : ℚ) < 100)]
    exact Int.floor_le _
  · intro q
    by_cases hq : 0 ≤ q
    · have hup : trunc2 q ≤ q := by
        unfold trunc2 ratTruncZ
        rw [if_pos (by positivity : (0 : ℚ) ≤ q * 100)]
        rw [div_le_iff₀ (by norm_num : (0 : ℚ) < 100)]
        exact Int.floor_le _
      have hlo : 0 ≤ trunc2 q := by
        unfold trunc2 ratTruncZ
        rw [if_pos (by positivity : (0 : ℚ) ≤ q * 100)]
        have : (0 : ℤ) ≤ ⌊q * 100⌋ := Int.floor_nonneg.mpr (by positivity)
        positivity
      rw [abs_of_nonneg hq, abs_of_nonneg hlo]
      exact hup
    · push_neg at hq
      have hq100 : q * 100 < 0 := by nlinarith
      have heq : trunc2 q = (⌈q * 100⌉ : ℚ) / 100 := by
        unfold trunc2 ratTruncZ
        rw [if_neg (not_le.mpr hq100)]
      have hlo : q ≤ trunc2 q := by
        rw [heq, le_div_iff₀ (by norm_num : (0 : ℚ) < 100)]
        exact Int.le_ceil _
      have hup : trunc2 q ≤ 0 := by
        rw [heq]
        have hc : (⌈q * 100⌉ : ℤ) ≤ 0 :=
          Int.ceil_le.mpr (by exact_mod_cast le_of_lt hq100)
        have hc' : ((⌈q * 100⌉ : ℤ) : ℚ) ≤ 0 := by exact_mod_cast hc
        linarith
      rw [abs_of_nonpos hup, abs_of_nonpos (le_of_lt hq)]
      linarith
  · intro q
    exact ⟨ratTruncZ (q * 100), by
      unfold trunc2
      rw [div_mul_cancel₀ _ (by norm_num : (100 : ℚ) ≠ 0)]⟩
  · refine ⟨⟨a, X / r, |a - X / r| / min a (X / r) * 100,
      if |a - X / r| / min a (X / r) * 100 ≤ 10 then max a (X / r)
        else min a (X / r),
      trunc2 a, trunc2 (X / r),
      trunc2 (if |a - X / r| / min a (X / r) * 100 ≤ 10 then max a (X / r)
        else min a (X / r)),
      roundHalfUp (if |a - X / r| / min a (X / r) * 100 ≤ 10 then
        max a (X / r) else min a (X / r)),
      r, some (.str ts)⟩, ?_, rfl, rfl, rfl, rfl⟩
    rw [handleConversion_hit X a r ts easyF saveOk now hX ha hr]

/-- Witness for `display_truncation_and_invoice_rounding` at the same
concrete scenario as the C1 witness. -/
theorem display_truncation_and_invoice_rounding_witness :
    trunc2 (1342455 / 1000) = 134245 / 100 ∧
    trunc2 (10999 / 1000) = 1099 / 100 ∧
    roundHalfUp (201 / 2) = 101 ∧
    (∀ q : ℚ, 0 ≤ q → trunc2 q ≤ q) ∧
    (∀ q : ℚ, |trunc2 q| ≤ |q|) ∧
    (∀ q : ℚ, ∃ z : ℤ, trunc2 q * 100 = z) ∧
    ∃ c : ConvReply,
      (handleConversion (.ok 10500) (fun _ => .ok 100)
        (.json (.obj [(rateKey, .num 100), (updKey, .str "")])) (.ok none)
        true ⟨2025, 1, 1, 0, 0, 0, 0⟩).replies = [.conversion c] ∧
      c.xeShow = trunc2 c.xeRaw ∧ c.easyShow = trunc2 c.easyRaw ∧
      c.usedShow = trunc2 c.usedRaw ∧ c.rounded = roundHalfUp c.usedRaw :=
  display_truncation_and_invoice_rounding 10500 100 100 "" (.ok none) true
    ⟨2025, 1, 1, 0, 0, 0, 0⟩ (by norm_num) (by norm_num) (by norm_num)

/-- Unfolding of the retry loop at a positive remaining-attempt count. -/
lemma retryGo_succ (att : ℕ → Except E C) (jit : ℕ → ℚ) (base cap : ℚ)
    (k n : ℕ) :
    retryGo att jit base cap (k + 1) n =
      match att n with
      | .ok c => ⟨.ok (some c), [], 1⟩
      | .error e =>
        match k with
        | 0 => ⟨.error e, [], 1⟩
        | k' + 1 =>
          let rest := retryGo att jit base cap (k' + 1) (n + 1)
          ⟨rest.outcome, min cap (base * 2 ^ (n - 1)) * jit n :: rest.delays,
            rest.attemptsMade + 1⟩ := by
  rw [retryGo]

/-- The retry loop makes at most `k` attempts. -/
lemma retryGo_attemptsMade_le (att : ℕ → Except E C) (jit : ℕ → ℚ)
    (base cap : ℚ) : ∀ k n, (retryGo att jit base cap k n).attemptsMade ≤ k := by
  intro k
  induction k with
  | zero => intro n; exact le_refl 0
  | succ k ih =>
    intro n
    rw [retryGo_succ]
    cases hatt : att n with
    | ok c => simp
    | error e =>
      cases k with
      | zero => simp
      | succ k' =>
        have := ih (n + 1)
        simp only []
        omega

/-- When every attempt fails, the loop makes exactly `k` attempts, ends
with the error of the last attempt, and sleeps the backoff-times-jitter
delay after each failed attempt except the last. -/
lemma retryGo_all_fail (att : ℕ → Except E C) (jit : ℕ → ℚ)
    (base cap : ℚ) (f : ℕ → E) (hf : ∀ i, att i = .error (f i)) :
    ∀ k n, 1 ≤ k →
      (retryGo att jit base cap k n).outcome = .error (f (n + k - 1)) ∧
      (retryGo att jit base cap k n).attemptsMade = k ∧
      (retryGo att jit base cap k n).delays =
        (List.range (k - 1)).map
          (fun i => min cap (base * 2 ^ (n + i - 1)) * jit (n + i)) := by
  intro k
  induction k with
  | zero => intro n h; exact absurd h (by omega)
  | succ k ih =>
    intro n _
    cases k with
    | zero => rw [retryGo_succ, hf n]; simp
    | succ k' =>
      have hrest := ih (n + 1) (by omega)
      rw [retryGo_succ, hf n]
      refine ⟨?_, ?_, ?_⟩
      · simp only []
        rw [hrest.1]
        have harg : n + 1 + (k' + 1) - 1 = n + (k' + 1 + 1) - 1 := by omega
        rw [harg]
      · simp only []
        omega
      · simp only []
        rw [hrest.2.2]
        have hfun : (fun i => min cap (base * 2 ^ (n + 1 + i - 1)) *
            jit (n + 1 + i)) =
            (fun i => min cap (base * 2 ^ (n + (i + 1) - 1)) *
              jit (n + (i + 1))) := by
          funext i
          have h1 : n + 1 + i - 1 = n + (i + 1) - 1 := by omega
          have h2 : n + 1 + i = n + (i + 1) := by omega
          rw [h1, h2]
        rw [hfun]
        have hrange : List.range (k' + 1 + 1 - 1) =
            0 :: (List.range (k' + 1 - 1)).map Nat.succ := by
          simp only [Nat.add_sub_cancel]
          exact List.range_succ_eq_map (k' + 1 - 1) ▸ by simp
        rw [hrange]
        simp [Function.comp_def]

/-- C9.  `connect_with_retries` makes at most `retries` attempts; when
all attempts fail it makes exactly `retries` of them, sleeps
`min(cap, base * 2^(n-1)) * uniform(1.0, 1.4)` after each failed attempt
`n` except the last, and re-raises the error of the last attempt. -/
theorem bootstrap_backoff_and_reraise (att : ℕ → Except E C)
    (jit : ℕ → ℚ) (base cap : ℚ) (retries : ℕ) (f : ℕ → E)
    (hr : 1 ≤ retries) (hfail : ∀ i, att i = .error (f i))
    (hjit : ∀ n, 1 ≤ jit n ∧ jit n < 7 / 5) :
    (∀ att2 : ℕ → Except E C,
      (connectWithRetries att2 jit base cap retries).attemptsMade ≤
        retries) ∧
    (connectWithRetries att jit base cap retries).attemptsMade = retries ∧
    (connectWithRetries att jit base cap retries).outcome =
      .error (f retries) ∧
    (connectWithRetries att jit base cap retries).delays =
      (List.range (retries - 1)).map
        (fun i => min cap (base * 2 ^ (1 + i - 1)) * jit (1 + i)) ∧
    ∀ d ∈ (connectWithRetries att jit base cap retries).delays,
      ∃ n j, 1 ≤ n ∧ n < retries ∧ 1 ≤ j ∧ j < 7 / 5 ∧
        d = min cap (base * 2 ^ (n - 1)) * j := by
  have hall := retryGo_all_fail att jit base cap f hfail retries 1 hr
  refine ⟨fun att2 => retryGo_attemptsMade_le att2 jit base cap retries 1,
    hall.2.1, ?_, hall.2.2, ?_⟩
  · rw [connectWithRetries, hall.1]
    have harg : 1 + retries - 1 = retries := by omega
    rw [harg]
  · intro d hd
    rw [connectWithRetries, hall.2.2] at hd
    rw [List.mem_map] at hd
    obtain ⟨i, hi, hdi⟩ := hd
    rw [List.mem_range] at hi
    refine ⟨1 + i, jit (1 + i), by omega, by omega, (hjit (1 + i)).1,
      (hjit (1 + i)).2, hdi.symm⟩

/-- Witness for `bootstrap_backoff_and_reraise`: every attempt fails
with its own index, three configured attempts, unit jitter. -/
theorem bootstrap_backoff_and_reraise_witness :
    (connectWithRetries (fun i => (.error i : Except ℕ Unit))
      (fun _ => 1) (1 / 2) 5 3).attemptsMade = 3 ∧
    (connectWithRetries (fun i => (.error i : Except ℕ Unit))
      (fun _ => 1) (1 / 2) 5 3).outcome = .error 3 ∧
    (connectWithRetries (fun i => (.error i : Except ℕ Unit))
      (fun _ => 1) (1 / 2) 5 3).delays =
      (List.range 2).map
        (fun i => min 5 ((1 / 2 : ℚ) * 2 ^ (1 + i - 1)) * 1) := by
  have h := bootstrap_backoff_and_reraise (fun i => (.error i : Except ℕ Unit))
    (fun _ => 1) (1 / 2) 5 3 (fun i => i) (by norm_num) (fun i => rfl)
    (fun n => by norm_num)
  exact ⟨h.2.1, h.2.2.1, h.2.2.2.1⟩

/-- Appending a character list through elementary operations. -/
lemma runOps_map_append : ∀ (cs : List Char) (t : FileText),
    runOps t (cs.map .append) = t ++ cs := by
  intro cs
  induction cs with
  | nil => intro t; simp [runOps]
  | cons c cs ih =>
    intro t
    simp only [List.map_cons, runOps, List.foldl_cons, applyFsOp]
    have := ih (t ++ [c])
    simp only [runOps] at this
    rw [this, List.append_assoc, List.singleton_append]

/-- One complete `save` segment rewrites the file to the full dump,
whatever it held before. -/
lemma runOps_saveOps (t : FileText) (r : ℚ) (tm : PyDateTime) :
    runOps t (saveOps r tm) = cacheDumpText r tm := by
  simp only [saveOps, runOps, List.foldl_cons, applyFsOp]
  have := runOps_map_append (cacheDumpText r tm) []
  simp only [runOps] at this
  rw [this, List.nil_append]

/-- Any interleaving of refresh segments leaves the file holding either
its initial content or one complete saved record. -/
lemma runSchedule_complete : ∀ (sched : List Segment) (t0 : FileText),
    (∀ seg ∈ sched, refreshSegment seg) →
    runSchedule t0 sched = t0 ∨
      ∃ r tm, runSchedule t0 sched = cacheDumpText r tm := by
  intro sched
  induction sched with
  | nil => intro t0 _; left; rfl
  | cons seg rest ih =>
    intro t0 h
    have hseg := h seg (List.mem_cons_self _ _)
    have hrest := fun s hs => h s (List.mem_cons_of_mem _ hs)
    rcases hseg with hempty | ⟨r, tm, hsave⟩
    · subst hempty
      have : runSchedule t0 ([] :: rest) = runSchedule t0 rest := by
        simp [runSchedule, runOps]
      rw [this]
      exact ih t0 hrest
    · subst hsave
      have : runSchedule t0 (saveOps r tm :: rest) =
          runSchedule (cacheDumpText r tm) rest := by
        simp only [runSchedule, List.foldl_cons]
        rw [runOps_saveOps]
      rw [this]
      rcases ih (cacheDumpText r tm) hrest with heq | ⟨r', tm', heq⟩
      · exact Or.inr ⟨r, tm, heq⟩
      · exact Or.inr ⟨r', tm', heq⟩

/-- C4.  Concurrent refresh calls interleave only at `await` suspension
points of the asyncio event loop; `CacheRepository.save` is a synchronous
function with no suspension point between `open(path, 'w')` and
`json.dump`, so all of its file operations form one atomic segment.
Starting from a complete record, after any interleaving of refresh
segments the cache file holds either the old complete record or one new
complete record — a reader scheduled at any point (every prefix of a
valid schedule is a valid schedule) never observes a partially written
file. -/
theorem concurrent_refresh_atomic_overwrite (r0 : ℚ) (tm0 : PyDateTime)
    (sched : List Segment) (h : ∀ seg ∈ sched, refreshSegment seg) :
    runSchedule (cacheDumpText r0 tm0) sched = cacheDumpText r0 tm0 ∨
      ∃ r tm, runSchedule (cacheDumpText r0 tm0) sched =
        cacheDumpText r tm :=
  runSchedule_complete sched (cacheDumpText r0 tm0) h

/-- Witness for `concurrent_refresh_atomic_overwrite`: two interleaved
refresh saves and one file-silent awaited step. -/
theorem concurrent_refresh_atomic_overwrite_witness :
    runSchedule (cacheDumpText 80 ⟨2025, 1, 1, 0, 0, 0, 0⟩)
        [[], saveOps 85 ⟨2025, 1, 2, 0, 0, 0, 0⟩,
          saveOps 90 ⟨2025, 1, 3, 0, 0, 0, 0⟩] =
      cacheDumpText 80 ⟨2025, 1, 1, 0, 0, 0, 0⟩ ∨
    ∃ r tm,
      runSchedule (cacheDumpText 80 ⟨2025, 1, 1, 0, 0, 0, 0⟩)
          [[], saveOps 85 ⟨2025, 1, 2, 0, 0, 0, 0⟩,
            saveOps 90 ⟨2025, 1, 3, 0, 0, 0, 0⟩] =
        cacheDumpText r tm :=
  concurrent_refresh_atomic_overwrite 80 ⟨2025, 1, 1, 0, 0, 0, 0⟩
    [[], saveOps 85 ⟨2025, 1, 2, 0, 0, 0, 0⟩,
      saveOps 90 ⟨2025, 1, 3, 0, 0, 0, 0⟩]
    (by
      intro seg hs
      fin_cases hs
      · exact Or.inl rfl
      · exact Or.inr ⟨85, ⟨2025, 1, 2, 0, 0, 0, 0⟩, rfl⟩
      · exact Or.inr ⟨90, ⟨2025, 1, 3, 0, 0, 0, 0⟩, rfl⟩)

/-- A rendered digit is a digit character. -/
lemma isDigitC_digitChar (n : ℕ) (h : n < 10) :
    isDigitC (digitChar n) = true := by
  interval_cases n <;> rfl

/-- Rendering then reading a digit is the identity. -/
lemma charVal_digitChar (n : ℕ) (h : n < 10) :
    charVal (digitChar n) = n := by
  interval_cases n <;> rfl

/-- `parse2` undoes `pad2`. -/
lemma parse2_pad2 (n : ℕ) (h : n < 100) (rest : List Char) :
    parse2 (pad2 n ++ rest) = some (n, rest) := by
  have h1 : n / 10 < 10 := by omega
  have h2 : n % 10 < 10 := by omega
  simp only [pad2, List.cons_append, List.nil_append, parse2]
  rw [if_pos ⟨isDigitC_digitChar _ h1, isDigitC_digitChar _ h2⟩]
  rw [charVal_digitChar _ h1, charVal_digitChar _ h2]
  have : n / 10 * 10 + n % 10 = n := by omega
  rw [this]

/-- `parse4` undoes `pad4`. -/
lemma parse4_pad4 (n : ℕ) (h : n < 10000) (rest : List Char) :
    parse4 (pad4 n ++ rest) = some (n, rest) := by
  have h1 : n / 1000 < 10 := by omega
  have h2 : n / 100 % 10 < 10 := by omega
  have h3 : n / 10 % 10 < 10 := by omega
  have h4 : n % 10 < 10 := by omega
  simp only [pad4, List.cons_append, List.nil_append, parse4]
  rw [if_pos ⟨isDigitC_digitChar _ h1, isDigitC_digitChar _ h2,
    isDigitC_digitChar _ h3, isDigitC_digitChar _ h4⟩]
  rw [charVal_digitChar _ h1, charVal_digitChar _ h2,
    charVal_digitChar _ h3, charVal_digitChar _ h4]
  have : n / 1000 * 1000 + n / 100 % 10 * 100 + n / 10 % 10 * 10 + n % 10 =
      n := by omega
  rw [this]

/-- `parse6` undoes `pad6`. -/
lemma parse6_pad6 (n : ℕ) (h : n < 1000000) (rest : List Char) :
    parse6 (pad6 n ++ rest) = some (n, rest) := by
  have h1 : n / 100000 < 10 := by omega
  have h2 : n / 10000 % 10 < 10 := by omega
  have h3 : n / 1000 % 10 < 10 := by omega
  have h4 : n / 100 % 10 < 10 := by omega
  have h5 : n / 10 % 10 < 10 := by omega
  have h6 : n % 10 < 10 := by omega
  simp only [pad6, List.cons_append, List.nil_append, parse6]
  rw [if_pos ⟨isDigitC_digitChar _ h1, isDigitC_digitChar _ h2,
    isDigitC_digitChar _ h3, isDigitC_digitChar _ h4,
    isDigitC_digitChar _ h5, isDigitC_digitChar _ h6⟩]
  rw [charVal_digitChar _ h1, charVal_digitChar _ h2,
    charVal_digitChar _ h3, charVal_digitChar _ h4,
    charVal_digitChar _ h5, charVal_digitChar _ h6]
  have : n / 100000 * 100000 + n / 10000 % 10 * 10000 +
      n / 1000 % 10 * 1000 + n / 100 % 10 * 100 + n / 10 % 10 * 10 +
      n % 10 = n := by omega
  rw [this]

/-- Reading an expected punctuation character succeeds. -/
lemma expectChar_cons (c : Char) (rest : List Char) :
    expectChar c (c :: rest) = some rest := by
  simp [expectChar]

/-- The rendered microsecond tail parses back to the microsecond value. -/
lemma parseIsoTail_render (us : ℕ) (h : us < 1000000) :
    parseIsoTail ((if us = 0 then [] else '.' :: pad6 us) ++
      ['+', '0', '0', ':', '0', '0']) = some us := by
  by_cases h0 : us = 0
  · subst h0
    rfl
  · rw [if_neg h0, List.cons_append]
    simp only [parseIsoTail]
    rw [parse6_pad6 us h]
    simp [plusZeros]

/-- Parsing the `isoformat` rendering of any realizable UTC datetime
recovers the datetime. -/
lemma parseIsoUtc_isoformatUTC (t : PyDateTime) (ht : t.valid) :
    parseIsoUtc (isoformatUTC t) = some t := by
  obtain ⟨ty, tmo, td, th, tmi, tse, tus⟩ := t
  simp only [PyDateTime.valid] at ht
  obtain ⟨hy, hm1, hm2, hd1, hd2, hh, hmi, hs, hus⟩ := ht
  simp only [isoformatUTC, parseIsoUtc, List.append_assoc,
    List.cons_append]
  rw [parse4_pad4 _ hy]
  simp only [Option.bind_eq_bind, Option.some_bind]
  rw [expectChar_cons]
  simp only [Option.some_bind]
  rw [parse2_pad2 _ (by omega)]
  simp only [Option.some_bind]
  rw [expectChar_cons]
  simp only [Option.some_bind]
  rw [parse2_pad2 _ (by omega)]
  simp only [Option.some_bind]
  rw [expectChar_cons]
  simp only [Option.some_bind]
  rw [parse2_pad2 _ (by omega)]
  simp only [Option.some_bind]
  rw [expectChar_cons]
  simp only [Option.some_bind]
  rw [parse2_pad2 _ (by omega)]
  simp only [Option.some_bind]
  rw [expectChar_cons]
  simp only [Option.some_bind]
  rw [parse2_pad2 _ (by omega)]
  simp only [Option.some_bind]
  rw [parseIsoTail_render _ hus]
  simp only [Option.some_bind]
  rw [if_pos ⟨hm1, hm2, hd1, hd2, hh, hmi, hs⟩]

/-- C5.  After a successful `save(r)`, `load()` returns exactly the
stored dictionary: its `rate` field is `r` and its `updated_at` field is
the `isoformat` UTC timestamp of the save instant, which parses back to
that very timestamp (in particular it is a valid UTC timestamp). -/
theorem cache_save_load_roundtrip (r : ℚ) (t : PyDateTime)
    (ht : t.valid) :
    loadFile (saveFile r t) = .ok (cacheJson r t) ∧
    getField (cacheJson r t) rateKey = some (.num r) ∧
    getField (cacheJson r t) updKey =
      some (.str (String.mk (isoformatUTC t))) ∧
    parseIsoUtc (isoformatUTC t) = some t := by
  refine ⟨rfl, ?_, ?_, parseIsoUtc_isoformatUTC t ht⟩
  · simp [cacheJson, getField, lookupField]
  · simp [cacheJson, getField, lookupField, rateKey, updKey]

/-- Witness for `cache_save_load_roundtrip` at rate 85.5 and a concrete
timestamp. -/
theorem cache_save_load_roundtrip_witness :
    loadFile (saveFile (171 / 2) ⟨2025, 11, 11, 9, 30, 0, 123456⟩) =
      .ok (cacheJson (171 / 2) ⟨2025, 11, 11, 9, 30, 0, 123456⟩) ∧
    getField (cacheJson (171 / 2) ⟨2025, 11, 11, 9, 30, 0, 123456⟩)
      rateKey = some (.num (171 / 2)) ∧
    getField (cacheJson (171 / 2) ⟨2025, 11, 11, 9, 30, 0, 123456⟩)
      updKey = some (.str (String.mk
        (isoformatUTC ⟨2025, 11, 11, 9, 30, 0, 123456⟩))) ∧
    parseIsoUtc (isoformatUTC ⟨2025, 11, 11, 9, 30, 0, 123456⟩) =
      some ⟨2025, 11, 11, 9, 30, 0, 123456⟩ :=
  cache_save_load_roundtrip (171 / 2) ⟨2025, 11, 11, 9, 30, 0, 123456⟩
    (by decide)
